import Mathlib

/-!
Shallow embedding of the ledger core of the `ebnrushd/ledger` repository
(src/core/transaction_processing.py, src/core/account_management.py,
src/core/fee_engine.py, src/core/accounting_validator.py,
src/core/audit_service.py).

Modelling conventions:
* `Decimal` values (balances, amounts, overdraft limits) are embedded as `ℚ`:
  Python `Decimal` addition/subtraction is exact, and `Decimal(str(x))`
  round-trips exactly, so additive ledger arithmetic is faithfully rational.
* Each Python function that opens a database connection, performs writes and
  commits is one *atomic unit*; units are numbered by the counter
  `DB.nextUnitId`.  Every committed row write is journalled together with the
  unit that performed it (`DB.journal`), which models "written inside the same
  database transaction".  `database.execute_query` opens its own connection and
  commits, so each `execute_query(..., commit=True)` call is its own unit, and
  `audit_service.log_event` called without `conn` is likewise its own unit.
* A Python exception that propagates out of an engine function triggers
  `conn.rollback()`; this is embedded by the function returning `.error e`
  and the caller keeping the pre-state (see `applyOp`).
* The `account_status_types` join (status_id -> status_name) is collapsed:
  `Account.status` directly holds the status name.  The status enumeration
  (active / frozen / closed) follows the repository's data model; the SQL
  seed files are not part of src/.  The `transaction_types` and `fee_types`
  lookup tables are kept as explicit `DB` fields so that nothing about their
  contents is assumed.
-/

namespace Ledger

/-- Account status name (the `account_status_types.status_name` column,
with the `status_id` foreign key collapsed). -/
inductive AccountStatus
  | active
  | frozen
  | closed
deriving DecidableEq, Repr

/-- A row of the `accounts` table (the columns the ledger core reads/writes:
`balance`, status, `overdraft_limit`). -/
structure Account where
  balance : ℚ
  status : AccountStatus
  overdraftLimit : ℚ
deriving DecidableEq, Repr

/-- A row of the `transactions` table. -/
structure TxRecord where
  txId : ℕ
  accountId : ℕ
  txTypeId : ℕ
  amount : ℚ
  description : String
  relatedAccountId : Option ℕ
deriving DecidableEq, Repr

/-- A row of the `audit_log` table, tagged with the atomic unit
(database transaction) that inserted it. -/
structure AuditEntry where
  logId : ℕ
  actionType : String
  targetEntity : String
  targetId : ℕ
  unit : ℕ
deriving DecidableEq, Repr

/-- One committed row write, as recorded in the write journal. -/
inductive DbWrite
  | balanceUpdate (accountId : ℕ) (change : ℚ)
  | statusUpdate (accountId : ℕ) (newStatus : AccountStatus)
  | txInsert (txId : ℕ) (accountId : ℕ) (amount : ℚ)
  | auditInsert (logId : ℕ) (actionType : String) (targetId : ℕ)
deriving DecidableEq, Repr

/-- A journal entry: which atomic unit performed which write. -/
structure JEntry where
  unit : ℕ
  write : DbWrite
deriving DecidableEq, Repr

/-- The database state seen by the ledger core. -/
structure DB where
  accounts : List (ℕ × Account)
  transactions : List TxRecord
  auditLog : List AuditEntry
  journal : List JEntry
  txTypes : List (String × ℕ)
  feeTypes : List (String × ℚ)
  nextTxId : ℕ
  nextLogId : ℕ
  nextUnitId : ℕ
deriving DecidableEq, Repr

/-- Embeds `SELECT ... FROM accounts WHERE account_id = k` (first matching
row). -/
def lookupAcc : List (ℕ × Account) → ℕ → Option Account
  | [], _ => none
  | (i, a) :: rest, k => if i = k then some a else lookupAcc rest k

/-- Embeds `UPDATE accounts SET ... WHERE account_id = k` applied to every matching
row. -/
def updAcc (l : List (ℕ × Account)) (k : ℕ) (f : Account → Account) :
    List (ℕ × Account) :=
  l.map fun p => if p.1 = k then (p.1, f p.2) else p

/-- Lookup in a name-keyed table (`transaction_types`, `fee_types`). -/
def lookupTbl {α : Type} : List (String × α) → String → Option α
  | [], _ => none
  | (n, v) :: rest, k => if n = k then some v else lookupTbl rest k

/-- Embeds `transaction_processing.get_transaction_type_id`: `SELECT
transaction_type_id FROM transaction_types WHERE type_name = %s`; `none`
models the `InvalidTransactionTypeError` raise. -/
def get_transaction_type_id (db : DB) (typeName : String) : Option ℕ :=
  lookupTbl db.txTypes typeName

/-- Embeds `transaction_processing._update_account_balance` inside unit `u`:
`UPDATE accounts SET balance = balance + change WHERE account_id = ...`;
`none` models the `rowcount == 0` raise of `AccountNotFoundError`. -/
def update_account_balance (db : DB) (accountId : ℕ) (change : ℚ) (u : ℕ) :
    Option DB :=
  if (lookupAcc db.accounts accountId).isSome then
    some { db with
      accounts :=
        updAcc db.accounts accountId fun a =>
          { a with balance := a.balance + change },
      journal := db.journal ++ [⟨u, .balanceUpdate accountId change⟩] }
  else none

/-- Embeds `transaction_processing._record_transaction` inside unit `u`: inserts one
`transactions` row and returns its `RETURNING transaction_id`. -/
def record_transaction (db : DB) (accountId : ℕ) (txTypeId : ℕ) (amount : ℚ)
    (description : String) (relatedAccountId : Option ℕ) (u : ℕ) : ℕ × DB :=
  (db.nextTxId,
   { db with
     transactions := db.transactions ++
       [⟨db.nextTxId, accountId, txTypeId, amount, description,
         relatedAccountId⟩],
     journal := db.journal ++ [⟨u, .txInsert db.nextTxId accountId amount⟩],
     nextTxId := db.nextTxId + 1 })

/-- Embeds `audit_service.log_event` with a caller-supplied `conn`: the insert joins
the caller's unit `u`; the caller commits. -/
def log_event_conn (db : DB) (actionType : String) (targetId : ℕ) (u : ℕ) :
    DB :=
  { db with
    auditLog := db.auditLog ++
      [⟨db.nextLogId, actionType, "accounts", targetId, u⟩],
    journal := db.journal ++
      [⟨u, .auditInsert db.nextLogId actionType targetId⟩],
    nextLogId := db.nextLogId + 1 }

/-- Embeds `audit_service.log_event` without `conn`: it goes through
`execute_query(..., commit=True)`, which opens its own connection and commits,
i.e. a fresh atomic unit of its own. -/
def log_event_standalone (db : DB) (actionType : String) (targetId : ℕ) : DB :=
  let db1 := log_event_conn db actionType targetId db.nextUnitId
  { db1 with nextUnitId := db.nextUnitId + 1 }

/-- The overdraft-audit trigger used by all four debit paths:
`new_balance_after_tx < 0 and (not used_overdraft_before or
new_balance_after_tx < balance)` where `used_overdraft_before = balance < 0`. -/
def overdraftEventCond (oldBalance newBalance : ℚ) : Prop :=
  newBalance < 0 ∧ (¬ oldBalance < 0 ∨ newBalance < oldBalance)

instance (oldBalance newBalance : ℚ) :
    Decidable (overdraftEventCond oldBalance newBalance) :=
  inferInstanceAs
    (Decidable (newBalance < 0 ∧ (¬ oldBalance < 0 ∨ newBalance < oldBalance)))

instance {ε α : Type} [DecidableEq ε] [DecidableEq α] : DecidableEq (Except ε α)
  | .error e, .error e' =>
    if h : e = e' then .isTrue (h ▸ rfl) else .isFalse fun hh => h (by injection hh)
  | .error _, .ok _ => .isFalse fun hh => by injection hh
  | .ok _, .error _ => .isFalse fun hh => by injection hh
  | .ok v, .ok v' =>
    if h : v = v' then .isTrue (h ▸ rfl) else .isFalse fun hh => h (by injection hh)

/-- The typed errors of `transaction_processing` (the custom exception
hierarchy; `AccountNotFoundError` is imported there from
`account_management`). -/
inductive TxError
  | accountNotFound
  | accountNotActiveOrFrozen
  | insufficientFunds
  | invalidAmount
  | invalidTransactionType
  | transactionError
deriving DecidableEq, Repr

/-- Embeds `transaction_processing.deposit`.  An `.error` return models a raised
exception after `conn.rollback()`: none of the writes survive. -/
def deposit (db : DB) (accountId : ℕ) (amount : ℚ) (description : String) :
    Except TxError (ℕ × DB) :=
  if amount ≤ 0 then .error .invalidAmount
  else
    match lookupAcc db.accounts accountId with
    | none => .error .accountNotFound
    | some acc =>
      if acc.status ≠ .active then .error .accountNotActiveOrFrozen
      else
        let u := db.nextUnitId
        match update_account_balance db accountId amount u with
        | none => .error .accountNotFound
        | some db1 =>
          match get_transaction_type_id db1 "deposit" with
          | none => .error .invalidTransactionType
          | some depositTypeId =>
            let r := record_transaction db1 accountId depositTypeId amount
              description none u
            .ok (r.1, { r.2 with nextUnitId := u + 1 })

/-- Embeds `transaction_processing.withdraw`.  The overdraft audit event is written
through the same connection (`conn=conn`), i.e. inside the same unit. -/
def withdraw (db : DB) (accountId : ℕ) (amount : ℚ) (description : String) :
    Except TxError (ℕ × DB) :=
  if amount ≤ 0 then .error .invalidAmount
  else
    match lookupAcc db.accounts accountId with
    | none => .error .accountNotFound
    | some acc =>
      if acc.status ≠ .active then .error .accountNotActiveOrFrozen
      else if acc.balance - amount < -acc.overdraftLimit then
        .error .insufficientFunds
      else
        let u := db.nextUnitId
        match update_account_balance db accountId (-amount) u with
        | none => .error .accountNotFound
        | some db1 =>
          let db2 :=
            if overdraftEventCond acc.balance (acc.balance - amount) then
              log_event_conn db1 "OVERDRAFT_USED" accountId u
            else db1
          match get_transaction_type_id db2 "withdrawal" with
          | none => .error .invalidTransactionType
          | some withdrawalTypeId =>
            let r := record_transaction db2 accountId withdrawalTypeId
              (-amount) description none u
            .ok (r.1, { r.2 with nextUnitId := u + 1 })

/-- Embeds `from_acc_data = res_acc1 if res_acc1[0] == from_account_id else
res_acc2` (and the analogous selection of `to_acc_data`): `acc1` is the row
fetched for the first-locked id `accId1`, and its `account_id` column is
`accId1` itself. -/
def pickAcc (accId1 wantedId : ℕ) (acc1 acc2 : Account) : Account :=
  if accId1 = wantedId then acc1 else acc2

/-- Embeds `transaction_processing.transfer_funds`.  The first component of the
result is the sequence of `SELECT ... FOR UPDATE` row locks acquired, in
order: the code locks
`acc_id_1, acc_id_2 = min(from_account_id, to_account_id),
max(from_account_id, to_account_id)` in that order. -/
def transfer_funds (db : DB) (fromAccountId toAccountId : ℕ) (amount : ℚ)
    (description : String) :
    List ℕ × Except TxError ((ℕ × ℕ) × DB) :=
  if amount ≤ 0 then ([], .error .invalidAmount)
  else if fromAccountId = toAccountId then ([], .error .transactionError)
  else
    let accId1 := min fromAccountId toAccountId
    let accId2 := max fromAccountId toAccountId
    let locks := [accId1, accId2]
    match lookupAcc db.accounts accId1, lookupAcc db.accounts accId2 with
    | none, _ => (locks, .error .accountNotFound)
    | some _, none => (locks, .error .accountNotFound)
    | some acc1, some acc2 =>
      let fromAcc := pickAcc accId1 fromAccountId acc1 acc2
      let toAcc := pickAcc accId1 toAccountId acc1 acc2
      if fromAcc.status ≠ .active then (locks, .error .accountNotActiveOrFrozen)
      else if toAcc.status ≠ .active then
        (locks, .error .accountNotActiveOrFrozen)
      else if fromAcc.balance - amount < -fromAcc.overdraftLimit then
        (locks, .error .insufficientFunds)
      else
        let u := db.nextUnitId
        match update_account_balance db fromAccountId (-amount) u with
        | none => (locks, .error .accountNotFound)
        | some db1 =>
          let db2 :=
            if overdraftEventCond fromAcc.balance (fromAcc.balance - amount)
            then log_event_conn db1 "OVERDRAFT_USED" fromAccountId u
            else db1
          match update_account_balance db2 toAccountId amount u with
          | none => (locks, .error .accountNotFound)
          | some db3 =>
            match get_transaction_type_id db3 "transfer" with
            | none => (locks, .error .invalidTransactionType)
            | some transferTypeId =>
              let rd := record_transaction db3 fromAccountId transferTypeId
                (-amount) (description ++ " to account " ++ toString toAccountId)
                (some toAccountId) u
              let rc := record_transaction rd.2 toAccountId transferTypeId
                amount (description ++ " from account " ++
                  toString fromAccountId)
                (some fromAccountId) u
              (locks, .ok ((rd.1, rc.1), { rc.2 with nextUnitId := u + 1 }))

/-- Wire direction (`direction in ['incoming', 'outgoing']`; any other string
raises `ValueError` before the engine runs, so the embedding takes the
enumeration directly). -/
inductive WireDirection
  | incoming
  | outgoing
deriving DecidableEq, Repr

/-- Embeds `transaction_processing.process_wire_transfer`. -/
def process_wire_transfer (db : DB) (accountId : ℕ) (amount : ℚ)
    (description : String) (direction : WireDirection) :
    Except TxError (ℕ × DB) :=
  if amount ≤ 0 then .error .invalidAmount
  else
    match lookupAcc db.accounts accountId with
    | none => .error .accountNotFound
    | some acc =>
      if acc.status ≠ .active then .error .accountNotActiveOrFrozen
      else
        match get_transaction_type_id db "wire_transfer" with
        | none => .error .invalidTransactionType
        | some wireTypeId =>
          let u := db.nextUnitId
          match direction with
          | .outgoing =>
            if acc.balance - amount < -acc.overdraftLimit then
              .error .insufficientFunds
            else
              match update_account_balance db accountId (-amount) u with
              | none => .error .accountNotFound
              | some db1 =>
                let db2 :=
                  if overdraftEventCond acc.balance (acc.balance - amount) then
                    log_event_conn db1 "OVERDRAFT_USED" accountId u
                  else db1
                let r := record_transaction db2 accountId wireTypeId (-amount)
                  description none u
                .ok (r.1, { r.2 with nextUnitId := u + 1 })
          | .incoming =>
            match update_account_balance db accountId amount u with
            | none => .error .accountNotFound
            | some db1 =>
              let r := record_transaction db1 accountId wireTypeId amount
                description none u
              .ok (r.1, { r.2 with nextUnitId := u + 1 })

/-- ACH type (`ach_type in ['credit', 'debit']`; any other string raises
`ValueError` before the engine runs). -/
inductive AchType
  | credit
  | debit
deriving DecidableEq, Repr

/-- Embeds `transaction_processing.process_ach_transaction`. -/
def process_ach_transaction (db : DB) (accountId : ℕ) (amount : ℚ)
    (description : String) (achType : AchType) : Except TxError (ℕ × DB) :=
  if amount ≤ 0 then .error .invalidAmount
  else
    match lookupAcc db.accounts accountId with
    | none => .error .accountNotFound
    | some acc =>
      if acc.status ≠ .active then .error .accountNotActiveOrFrozen
      else
        let u := db.nextUnitId
        match achType with
        | .debit =>
          if acc.balance - amount < -acc.overdraftLimit then
            .error .insufficientFunds
          else
            match update_account_balance db accountId (-amount) u with
            | none => .error .accountNotFound
            | some db1 =>
              let db2 :=
                if overdraftEventCond acc.balance (acc.balance - amount) then
                  log_event_conn db1 "OVERDRAFT_USED" accountId u
                else db1
              match get_transaction_type_id db2 "ach_debit" with
              | none => .error .invalidTransactionType
              | some achTypeId =>
                let r := record_transaction db2 accountId achTypeId (-amount)
                  description none u
                .ok (r.1, { r.2 with nextUnitId := u + 1 })
        | .credit =>
          match update_account_balance db accountId amount u with
          | none => .error .accountNotFound
          | some db1 =>
            match get_transaction_type_id db1 "ach_credit" with
            | none => .error .invalidTransactionType
            | some achTypeId =>
              let r := record_transaction db1 accountId achTypeId amount
                description none u
              .ok (r.1, { r.2 with nextUnitId := u + 1 })

/-- Errors of `account_management.update_account_status`
(`AccountNotFoundError` from the initial `get_account_by_id`,
`AccountStatusError` for closing with non-zero balance). -/
inductive AccError
  | accountNotFound
  | accountStatusError
deriving DecidableEq, Repr

/-- Embeds `account_management.update_account_status`.  The status `UPDATE` goes
through `database.execute_query(..., commit=True)`, which opens its own
connection and commits — one unit.  The subsequent
`audit_service.log_account_status_change` call passes no `conn`, so
`log_event` runs on another fresh auto-committed connection — a separate
unit. -/
def update_account_status (db : DB) (accountId : ℕ)
    (newStatusName : AccountStatus) : Except AccError DB :=
  match lookupAcc db.accounts accountId with
  | none => .error .accountNotFound
  | some acc =>
    if newStatusName = .closed ∧ acc.balance ≠ 0 then
      .error .accountStatusError
    else
      let u := db.nextUnitId
      let db1 := { db with
        accounts := updAcc db.accounts accountId fun a =>
          { a with status := newStatusName },
        journal := db.journal ++ [⟨u, .statusUpdate accountId newStatusName⟩],
        nextUnitId := u + 1 }
      .ok (log_event_standalone db1 "ACCOUNT_STATUS_CHANGE" accountId)

/-- Errors of `fee_engine.apply_fee`: `FeeTypeNotFoundError`, the generic
`FeeError("Fee amount must be positive.")`, and the `FeeError` that wraps a
failure of the delegated `withdraw` while keeping the original cause in its
message (`f"Could not apply fee ...: {e}"`). -/
inductive FeeErr
  | feeTypeNotFound
  | feeAmountNotPositive
  | wrapped (cause : TxError)
deriving DecidableEq, Repr

/-- Embeds `fee_engine.get_fee_type_details`: returns the fee type's
`default_amount`; `none` models `FeeTypeNotFoundError`. -/
def get_fee_type_details (db : DB) (feeTypeName : String) : Option ℚ :=
  lookupTbl db.feeTypes feeTypeName

/-- Python's `description or default`: an absent or empty string falls back
to the default. -/
def pyOr (s : Option String) (dflt : String) : String :=
  match s with
  | some v => if v = "" then dflt else v
  | none => dflt

/-- Embeds `fee_engine.apply_fee`.  `final_fee_amount` is the override when supplied
and the fee type's `default_amount` otherwise; the debit is delegated to
`withdraw` (its own unit); the `FEE_APPLIED` audit entry is then logged by
`log_event` without a `conn`, i.e. on a separate auto-committed connection —
a separate unit. -/
def apply_fee (db : DB) (accountId : ℕ) (feeTypeName : String)
    (feeAmount : Option ℚ) (description : Option String) :
    Except FeeErr (ℕ × DB) :=
  match get_fee_type_details db feeTypeName with
  | none => .error .feeTypeNotFound
  | some defaultAmount =>
    let finalFeeAmount := feeAmount.getD defaultAmount
    if finalFeeAmount ≤ 0 then .error .feeAmountNotPositive
    else
      let finalDescription := pyOr description
        ("Fee applied: " ++ feeTypeName)
      match withdraw db accountId finalFeeAmount finalDescription with
      | .error e => .error (.wrapped e)
      | .ok (txId, db1) =>
        .ok (txId, log_event_standalone db1 "FEE_APPLIED" accountId)

/-- Round a rational to the nearest integer, ties away from zero: the
`Decimal.quantize(..., rounding=ROUND_HALF_UP)` rounding mode. -/
def roundHalfUpInt (y : ℚ) : ℤ :=
  if 0 ≤ y then ⌊y + 1/2⌋ else -⌊-y + 1/2⌋

/-- Embeds `value.quantize(Decimal("0.01"), rounding=ROUND_HALF_UP)`. -/
def quantize2 (x : ℚ) : ℚ :=
  (roundHalfUpInt (100 * x) : ℚ) / 100

/-- The sum of `amount` over all `transactions` rows
(`SELECT SUM(amount) FROM transactions`). -/
def txTotal (db : DB) : ℚ :=
  (db.transactions.map TxRecord.amount).sum

/-- Embeds `accounting_validator.verify_ledger_integrity`: an empty table makes
`SUM(amount)` NULL, reported as balanced with sum `0.00`; otherwise the sum is
quantized to two decimals and compared with `0.00`. -/
def verify_ledger_integrity (db : DB) : Bool × ℚ :=
  match db.transactions with
  | [] => (true, 0)
  | _ :: _ =>
    let totalSumQuantized := quantize2 (txTotal db)
    if totalSumQuantized = 0 then (true, totalSumQuantized)
    else (false, totalSumQuantized)

/-- The error of `accounting_validator` functions
(`AccountingValidationError`; for `check_account_balance_vs_transactions` the
only reachable cause in the embedding is a missing account row). -/
inductive AccountingValidationError
  | accountNotFound
deriving DecidableEq, Repr

/-- Sum of the `amount` column over one account's transaction rows
(`SELECT SUM(amount) FROM transactions WHERE account_id = %s`, with NULL for
no rows read back as `0.00`). -/
def txSum (txs : List TxRecord) (accountId : ℕ) : ℚ :=
  ((txs.filter fun t => t.accountId == accountId).map TxRecord.amount).sum

/-- Embeds `accounting_validator.check_account_balance_vs_transactions`. -/
def check_account_balance_vs_transactions (db : DB) (accountId : ℕ) :
    Except AccountingValidationError (Bool × ℚ × ℚ) :=
  match lookupAcc db.accounts accountId with
  | none => .error .accountNotFound
  | some acc =>
    let reportedBalanceQ := quantize2 acc.balance
    let transactionsSumQ := quantize2 (txSum db.transactions accountId)
    if reportedBalanceQ = transactionsSumQ then
      .ok (true, reportedBalanceQ, transactionsSumQ)
    else
      .ok (false, reportedBalanceQ, transactionsSumQ)

/-- One TransactionEngine call, for reasoning about operation sequences. -/
inductive Op
  | dep (accountId : ℕ) (amount : ℚ) (description : String)
  | wd (accountId : ℕ) (amount : ℚ) (description : String)
  | xfer (fromAccountId toAccountId : ℕ) (amount : ℚ) (description : String)
  | wire (accountId : ℕ) (amount : ℚ) (description : String)
      (direction : WireDirection)
  | ach (accountId : ℕ) (amount : ℚ) (description : String) (achType : AchType)
deriving DecidableEq, Repr

/-- Committed-state semantics of one TransactionEngine call: on success the
new state is the committed one; a raised error rolls the unit back, leaving
the stored state untouched. -/
def applyOp (db : DB) : Op → DB
  | .dep a amt d =>
    match deposit db a amt d with
    | .ok r => r.2
    | .error _ => db
  | .wd a amt d =>
    match withdraw db a amt d with
    | .ok r => r.2
    | .error _ => db
  | .xfer f t amt d =>
    match (transfer_funds db f t amt d).2 with
    | .ok r => r.2
    | .error _ => db
  | .wire a amt d dir =>
    match process_wire_transfer db a amt d dir with
    | .ok r => r.2
    | .error _ => db
  | .ach a amt d ty =>
    match process_ach_transaction db a amt d ty with
    | .ok r => r.2
    | .error _ => db

/-- Run a sequence of TransactionEngine calls. -/
def runOps (db : DB) : List Op → DB
  | [] => db
  | op :: rest => runOps (applyOp db op) rest

/-- Whether an operation is a two-legged transfer (the only self-balancing
operation of the engine). -/
def Op.isTransfer : Op → Bool
  | .xfer _ _ _ _ => true
  | _ => false

/-- A concrete seeded database used to instantiate the universally
quantified theorems: two active accounts, the six standard transaction types
and the two fee types seeded by the schema scripts. -/
def seedDB : DB where
  accounts := [(1, ⟨0, .active, 100⟩), (2, ⟨50, .active, 0⟩)]
  transactions := []
  auditLog := []
  journal := []
  txTypes := [("deposit", 1), ("withdrawal", 2), ("transfer", 3),
    ("ach_credit", 4), ("ach_debit", 5), ("wire_transfer", 6)]
  feeTypes := [("monthly_maintenance_fee", 5), ("overdraft_usage_fee", 25)]
  nextTxId := 0
  nextLogId := 0
  nextUnitId := 0

/-- A concrete operation sequence exercising all five engine operations,
including a final withdrawal that fails the overdraft check. -/
def seedOps : List Op :=
  [.dep 1 100 "d", .wd 1 30 "w", .xfer 1 2 20 "t", .ach 1 10 "a" .debit,
   .wire 1 5 "wi" .outgoing, .wd 1 200 "overdraft fail"]

/-- The committed state after freezing account 1 of the concrete database
(`update_account_status` succeeds since freezing needs no balance check). -/
def frozenDB : DB :=
  match update_account_status seedDB 1 .frozen with
  | .ok db' => db'
  | .error _ => seedDB

/-- The committed state after applying the seeded monthly maintenance fee to
account 2 of the concrete database. -/
def feeDB : DB :=
  match apply_fee seedDB 2 "monthly_maintenance_fee" none none with
  | .ok r => r.2
  | .error _ => seedDB

/-! ### Helper lemmas about the store primitives -/

theorem lookupAcc_cons (i : ℕ) (acc : Account) (rest : List (ℕ × Account))
    (a : ℕ) :
    lookupAcc ((i, acc) :: rest) a =
      if i = a then some acc else lookupAcc rest a := rfl

theorem updAcc_cons (i : ℕ) (acc : Account) (rest : List (ℕ × Account))
    (k : ℕ) (f : Account → Account) :
    updAcc ((i, acc) :: rest) k f =
      (if i = k then (i, f acc) else (i, acc)) :: updAcc rest k f := by
  by_cases h : i = k
  · simp [updAcc, h]
  · simp [updAcc, h]

theorem lookupAcc_updAcc (l : List (ℕ × Account)) (k : ℕ)
    (f : Account → Account) (a : ℕ) :
    lookupAcc (updAcc l k f) a =
      if k = a then (lookupAcc l a).map f else lookupAcc l a := by
  induction l with
  | nil => simp [lookupAcc, updAcc]
  | cons p rest ih =>
    obtain ⟨i, acc⟩ := p
    rw [updAcc_cons]
    by_cases hik : i = k
    · subst hik
      rw [if_pos rfl]
      by_cases hia : i = a
      · subst hia
        simp [lookupAcc_cons]
      · simp [lookupAcc_cons, hia, ih]
    · rw [if_neg hik]
      by_cases hia : i = a
      · subst hia
        have hka : ¬ k = i := fun hh => hik hh.symm
        simp [lookupAcc_cons, hka]
      · simp [lookupAcc_cons, hia, ih]

theorem txSum_append (txs : List TxRecord) (r : TxRecord) (a : ℕ) :
    txSum (txs ++ [r]) a =
      txSum txs a + if r.accountId = a then r.amount else 0 := by
  by_cases h : r.accountId = a
  · simp [txSum, List.filter_append, List.filter_cons, h]
  · simp [txSum, List.filter_append, List.filter_cons, h]

theorem update_account_balance_eq_some {db : DB} {i : ℕ} {δ : ℚ} {u : ℕ}
    {db1 : DB} (h : update_account_balance db i δ u = some db1) :
    db1 = { db with
      accounts := updAcc db.accounts i fun a =>
        { a with balance := a.balance + δ },
      journal := db.journal ++ [⟨u, .balanceUpdate i δ⟩] } := by
  unfold update_account_balance at h
  split at h
  · exact (Option.some.inj h).symm
  · exact Option.noConfusion h

/-! ### Claim C1: balance equals the per-account transaction sum -/

/-- The reconciliation invariant for one account: if the account row exists,
its stored balance equals the sum of its transaction rows. -/
def balanceMatchesLedger (db : DB) (accountId : ℕ) : Prop :=
  ∀ acc, lookupAcc db.accounts accountId = some acc →
    acc.balance = txSum db.transactions accountId

instance decBalanceMatchesLedger (db : DB) (accountId : ℕ) :
    Decidable (balanceMatchesLedger db accountId) :=
  match h : lookupAcc db.accounts accountId with
  | none => isTrue fun _ hacc => by rw [h] at hacc; cases hacc
  | some acc0 =>
    if hb : acc0.balance = txSum db.transactions accountId then
      isTrue fun acc hacc => by
        rw [h] at hacc
        cases hacc
        exact hb
    else isFalse fun hall => hb (hall acc0 h)

/-- A balance change of `δ` on account `i` paired with one freshly appended
transaction row of amount `δ` on the same account preserves the
reconciliation invariant for any observed account `p`. -/
theorem balance_sum_step (accounts : List (ℕ × Account)) (txs : List TxRecord)
    (p i : ℕ) (δ : ℚ) (r : TxRecord) (hr1 : r.accountId = i)
    (hr2 : r.amount = δ)
    (h : ∀ acc, lookupAcc accounts p = some acc → acc.balance = txSum txs p) :
    ∀ acc,
      lookupAcc (updAcc accounts i fun a =>
        { a with balance := a.balance + δ }) p = some acc →
      acc.balance = txSum (txs ++ [r]) p := by
  intro acc hacc
  rw [lookupAcc_updAcc] at hacc
  rw [txSum_append, hr1, hr2]
  by_cases hip : i = p
  · subst hip
    rw [if_pos rfl] at hacc
    rw [if_pos rfl]
    cases hl : lookupAcc accounts i with
    | none => rw [hl] at hacc; cases hacc
    | some acc0 =>
      rw [hl, Option.map_some'] at hacc
      cases hacc
      simpa using h acc0 hl
  · rw [if_neg hip] at hacc
    rw [if_neg hip, add_zero]
    exact h acc hacc

/-- The operation `deposit` preserves the reconciliation invariant. -/
theorem balanceMatchesLedger_dep (db : DB) (p a : ℕ) (amt : ℚ) (d : String)
    (h : balanceMatchesLedger db p) :
    balanceMatchesLedger (applyOp db (.dep a amt d)) p := by
  simp only [applyOp]
  split
  case h_2 => exact h
  case h_1 r heq =>
    simp only [deposit] at heq
    split at heq
    · exact Except.noConfusion heq
    split at heq
    · exact Except.noConfusion heq
    split at heq
    · exact Except.noConfusion heq
    split at heq
    · exact Except.noConfusion heq
    rename_i db1 hupd
    split at heq
    · exact Except.noConfusion heq
    rename_i tid htid
    have hdb1 := update_account_balance_eq_some hupd
    subst hdb1
    cases Except.ok.inj heq
    exact balance_sum_step db.accounts db.transactions p a amt
      ⟨db.nextTxId, a, tid, amt, d, none⟩ rfl rfl h

/-- The operation `withdraw` preserves the reconciliation invariant. -/
theorem balanceMatchesLedger_wd (db : DB) (p a : ℕ) (amt : ℚ) (d : String)
    (h : balanceMatchesLedger db p) :
    balanceMatchesLedger (applyOp db (.wd a amt d)) p := by
  simp only [applyOp]
  split
  case h_2 => exact h
  case h_1 r heq =>
    simp only [withdraw] at heq
    split at heq
    · exact Except.noConfusion heq
    split at heq
    · exact Except.noConfusion heq
    split at heq
    · exact Except.noConfusion heq
    split at heq
    · exact Except.noConfusion heq
    split at heq
    · exact Except.noConfusion heq
    rename_i db1 hupd
    split at heq
    · exact Except.noConfusion heq
    rename_i tid htid
    have hdb1 := update_account_balance_eq_some hupd
    subst hdb1
    cases Except.ok.inj heq
    split
    · exact balance_sum_step db.accounts db.transactions p a (-amt)
        ⟨db.nextTxId, a, tid, -amt, d, none⟩ rfl rfl h
    · exact balance_sum_step db.accounts db.transactions p a (-amt)
        ⟨db.nextTxId, a, tid, -amt, d, none⟩ rfl rfl h

/-- The operation `process_wire_transfer` preserves the reconciliation
invariant. -/
theorem balanceMatchesLedger_wire (db : DB) (p a : ℕ) (amt : ℚ) (d : String)
    (dir : WireDirection) (h : balanceMatchesLedger db p) :
    balanceMatchesLedger (applyOp db (.wire a amt d dir)) p := by
  simp only [applyOp]
  split
  case h_2 => exact h
  case h_1 r heq =>
    cases dir with
    | outgoing =>
      simp only [process_wire_transfer] at heq
      split at heq
      · exact Except.noConfusion heq
      split at heq
      · exact Except.noConfusion heq
      split at heq
      · exact Except.noConfusion heq
      split at heq
      · exact Except.noConfusion heq
      rename_i tid htid
      split at heq
      · exact Except.noConfusion heq
      split at heq
      · exact Except.noConfusion heq
      rename_i db1 hupd
      have hdb1 := update_account_balance_eq_some hupd
      subst hdb1
      cases Except.ok.inj heq
      split
      · exact balance_sum_step db.accounts db.transactions p a (-amt)
          ⟨db.nextTxId, a, tid, -amt, d, none⟩ rfl rfl h
      · exact balance_sum_step db.accounts db.transactions p a (-amt)
          ⟨db.nextTxId, a, tid, -amt, d, none⟩ rfl rfl h
    | incoming =>
      simp only [process_wire_transfer] at heq
      split at heq
      · exact Except.noConfusion heq
      split at heq
      · exact Except.noConfusion heq
      split at heq
      · exact Except.noConfusion heq
      split at heq
      · exact Except.noConfusion heq
      rename_i tid htid
      split at heq
      · exact Except.noConfusion heq
      rename_i db1 hupd
      have hdb1 := update_account_balance_eq_some hupd
      subst hdb1
      cases Except.ok.inj heq
      exact balance_sum_step db.accounts db.transactions p a amt
        ⟨db.nextTxId, a, tid, amt, d, none⟩ rfl rfl h

/-- The operation `process_ach_transaction` preserves the reconciliation
invariant. -/
theorem balanceMatchesLedger_ach (db : DB) (p a : ℕ) (amt : ℚ) (d : String)
    (ty : AchType) (h : balanceMatchesLedger db p) :
    balanceMatchesLedger (applyOp db (.ach a amt d ty)) p := by
  simp only [applyOp]
  split
  case h_2 => exact h
  case h_1 r heq =>
    cases ty with
    | debit =>
      simp only [process_ach_transaction] at heq
      split at heq
      · exact Except.noConfusion heq
      split at heq
      · exact Except.noConfusion heq
      split at heq
      · exact Except.noConfusion heq
      split at heq
      · exact Except.noConfusion heq
      split at heq
      · exact Except.noConfusion heq
      rename_i db1 hupd
      split at heq
      · exact Except.noConfusion heq
      rename_i tid htid
      have hdb1 := update_account_balance_eq_some hupd
      subst hdb1
      cases Except.ok.inj heq
      split
      · exact balance_sum_step db.accounts db.transactions p a (-amt)
          ⟨db.nextTxId, a, tid, -amt, d, none⟩ rfl rfl h
      · exact balance_sum_step db.accounts db.transactions p a (-amt)
          ⟨db.nextTxId, a, tid, -amt, d, none⟩ rfl rfl h
    | credit =>
      simp only [process_ach_transaction] at heq
      split at heq
      · exact Except.noConfusion heq
      split at heq
      · exact Except.noConfusion heq
      split at heq
      · exact Except.noConfusion heq
      split at heq
      · exact Except.noConfusion heq
      rename_i db1 hupd
      split at heq
      · exact Except.noConfusion heq
      rename_i tid htid
      have hdb1 := update_account_balance_eq_some hupd
      subst hdb1
      cases Except.ok.inj heq
      exact balance_sum_step db.accounts db.transactions p a amt
        ⟨db.nextTxId, a, tid, amt, d, none⟩ rfl rfl h

/-- The operation `transfer_funds` preserves the reconciliation invariant. -/
theorem balanceMatchesLedger_xfer (db : DB) (p f t : ℕ) (amt : ℚ) (d : String)
    (h : balanceMatchesLedger db p) :
    balanceMatchesLedger (applyOp db (.xfer f t amt d)) p := by
  simp only [applyOp]
  split
  case h_2 => exact h
  case h_1 r heq =>
    simp only [transfer_funds] at heq
    split at heq
    · exact Except.noConfusion heq
    split at heq
    · exact Except.noConfusion heq
    split at heq
    · exact Except.noConfusion heq
    · exact Except.noConfusion heq
    split at heq
    · exact Except.noConfusion heq
    split at heq
    · exact Except.noConfusion heq
    split at heq
    · exact Except.noConfusion heq
    split at heq
    · exact Except.noConfusion heq
    rename_i db1 hupd1
    split at heq
    · exact Except.noConfusion heq
    rename_i db3 hupd3
    split at heq
    · exact Except.noConfusion heq
    rename_i tid htid
    have hdb1 := update_account_balance_eq_some hupd1
    subst hdb1
    split at hupd3
    all_goals
      have hdb3 := update_account_balance_eq_some hupd3
      subst hdb3
      cases Except.ok.inj heq
      exact balance_sum_step _ _ p t amt _ rfl rfl
        (balance_sum_step _ _ p f (-amt) _ rfl rfl h)

/-- Any single TransactionEngine call preserves the reconciliation
invariant. -/
theorem balanceMatchesLedger_applyOp (db : DB) (p : ℕ) (op : Op)
    (h : balanceMatchesLedger db p) :
    balanceMatchesLedger (applyOp db op) p := by
  cases op with
  | dep a amt d => exact balanceMatchesLedger_dep db p a amt d h
  | wd a amt d => exact balanceMatchesLedger_wd db p a amt d h
  | xfer f t amt d => exact balanceMatchesLedger_xfer db p f t amt d h
  | wire a amt d dir => exact balanceMatchesLedger_wire db p a amt d dir h
  | ach a amt d ty => exact balanceMatchesLedger_ach db p a amt d ty h

/-- Any sequence of TransactionEngine calls preserves the reconciliation
invariant. -/
theorem balanceMatchesLedger_runOps (db : DB) (p : ℕ) (ops : List Op)
    (h : balanceMatchesLedger db p) :
    balanceMatchesLedger (runOps db ops) p := by
  induction ops generalizing db with
  | nil => exact h
  | cons op rest ih =>
    exact ih (applyOp db op) (balanceMatchesLedger_applyOp db p op h)

/-- C1: for every account whose stored balance initially equals the sum of
its transaction records, after any sequence of TransactionEngine operations
(deposit, withdraw, transfer_funds, process_ach_transaction,
process_wire_transfer — successful or rolled back) and with no external
mutation of the account row, the account's stored balance equals the sum of
the signed amounts of that account's transaction records. -/
theorem C1_balance_equals_transaction_sum (db : DB) (accountId : ℕ)
    (ops : List Op) (h : balanceMatchesLedger db accountId) :
    balanceMatchesLedger (runOps db ops) accountId :=
  balanceMatchesLedger_runOps db accountId ops h

/-- Witness for C1 at a concrete database and operation sequence. -/
theorem C1_witness : balanceMatchesLedger (runOps seedDB seedOps) 1 :=
  C1_balance_equals_transaction_sum seedDB 1 seedOps
    (by with_unfolding_all decide)

/-- C2: for every withdraw on an existing active account with a positive
amount (and the seeded `withdrawal` transaction type): if
`balance - amount < -overdraft_limit` the operation raises
`InsufficientFundsError` and the committed state is unchanged; otherwise it
decrements the balance by `amount`, appends exactly one debit record with
amount `-amount`, and returns that record's id. -/
theorem C2_withdraw_contract (db : DB) (a : ℕ) (amount : ℚ) (d : String)
    (acc : Account) (wid : ℕ)
    (hacc : lookupAcc db.accounts a = some acc)
    (hactive : acc.status = .active)
    (hpos : 0 < amount)
    (hwid : get_transaction_type_id db "withdrawal" = some wid) :
    (acc.balance - amount < -acc.overdraftLimit →
      withdraw db a amount d = .error .insufficientFunds ∧
      applyOp db (.wd a amount d) = db) ∧
    (¬ acc.balance - amount < -acc.overdraftLimit →
      withdraw db a amount d = .ok (db.nextTxId, applyOp db (.wd a amount d)) ∧
      lookupAcc (applyOp db (.wd a amount d)).accounts a =
        some { acc with balance := acc.balance - amount } ∧
      (applyOp db (.wd a amount d)).transactions =
        db.transactions ++ [⟨db.nextTxId, a, wid, -amount, d, none⟩]) := by
  have hnle : ¬ amount ≤ 0 := not_le.mpr hpos
  constructor
  · intro hover
    have hover' : acc.overdraftLimit + acc.balance < amount := by linarith
    have hw : withdraw db a amount d = .error .insufficientFunds := by
      simp [withdraw, hnle, hacc, hactive, hover, hover']
    exact ⟨hw, by simp [applyOp, hw]⟩
  · intro hnover
    have hwid' : lookupTbl db.txTypes "withdrawal" = some wid := hwid
    have hupdsome : update_account_balance db a (-amount) db.nextUnitId =
        some { db with
          accounts := updAcc db.accounts a fun x =>
            { x with balance := x.balance + -amount },
          journal := db.journal ++
            [⟨db.nextUnitId, .balanceUpdate a (-amount)⟩] } := by
      unfold update_account_balance
      rw [hacc]
      simp
    have hnover' : ¬ acc.overdraftLimit + acc.balance < amount := by
      intro hc
      exact hnover (by linarith)
    have hov_iff : overdraftEventCond acc.balance (acc.balance + -amount) ↔
        overdraftEventCond acc.balance (acc.balance - amount) := by
      rw [sub_eq_add_neg]
    by_cases hov : overdraftEventCond acc.balance (acc.balance - amount)
    · have hov' : overdraftEventCond acc.balance (acc.balance + -amount) :=
        hov_iff.mpr hov
      refine ⟨?_, ?_, ?_⟩ <;>
        simp [applyOp, withdraw, hnle, hacc, hactive, hnover, hnover', hov,
          hov', hupdsome, get_transaction_type_id, hwid', record_transaction,
          log_event_conn, lookupAcc_updAcc, sub_eq_add_neg]
    · have hov' : ¬ overdraftEventCond acc.balance (acc.balance + -amount) :=
        fun hc => hov (hov_iff.mp hc)
      refine ⟨?_, ?_, ?_⟩ <;>
        simp [applyOp, withdraw, hnle, hacc, hactive, hnover, hnover', hov,
          hov', hupdsome, get_transaction_type_id, hwid', record_transaction,
          log_event_conn, lookupAcc_updAcc, sub_eq_add_neg]

/-- Witness for C2 at a concrete database: a successful withdrawal of 50
from an account with balance 0 and overdraft limit 100. -/
theorem C2_witness :
    withdraw seedDB 1 50 "w" =
      .ok (seedDB.nextTxId, applyOp seedDB (.wd 1 50 "w")) :=
  ((C2_withdraw_contract seedDB 1 50 "w" ⟨0, .active, 100⟩ 2
      (by with_unfolding_all decide) rfl (by norm_num)
      (by with_unfolding_all decide)).2
    (by with_unfolding_all decide)).1

/-- C4: for every transfer_funds call with distinct accounts and a positive
amount, the two `SELECT ... FOR UPDATE` row locks are acquired in ascending
account-id order: the lower id is locked first regardless of transfer
direction, so the higher-id row is never locked before the lower-id row. -/
theorem C4_transfer_lock_order (db : DB) (f t : ℕ) (amt : ℚ) (d : String)
    (hne : f ≠ t) (hpos : 0 < amt) :
    (transfer_funds db f t amt d).1 = [min f t, max f t] ∧
      min f t < max f t := by
  have hnle : ¬ amt ≤ 0 := not_le.mpr hpos
  constructor
  · simp only [transfer_funds]
    rw [if_neg hnle, if_neg hne]
    repeat' split
    all_goals rfl
  · exact min_lt_max.mpr hne

/-- Witness for C4: a transfer from the higher id 2 to the lower id 1 still
locks account 1 first. -/
theorem C4_witness :
    (transfer_funds seedDB 2 1 5 "t").1 = [min 2 1, max 2 1] ∧
      min 2 1 < max 2 1 :=
  C4_transfer_lock_order seedDB 2 1 5 "t" (by decide) (by norm_num)

/-- C3: a same-account transfer (with a positive amount) raises the generic
`TransactionError` and changes nothing; a successful transfer on distinct
accounts creates exactly two transaction records with opposite signs whose
related-account ids reference each other, and moves `amount` from the from-
balance to the to-balance; any failure leaves the committed state unchanged
(full rollback). -/
theorem C3_transfer_atomicity (db : DB) (f t : ℕ) (amt : ℚ) (d : String) :
    (0 < amt → f = t →
      (transfer_funds db f t amt d).2 = .error .transactionError ∧
      applyOp db (.xfer f t amt d) = db) ∧
    (∀ e, (transfer_funds db f t amt d).2 = .error e →
      applyOp db (.xfer f t amt d) = db) ∧
    (∀ ids db', (transfer_funds db f t amt d).2 = .ok (ids, db') →
      f ≠ t ∧ ids = (db.nextTxId, db.nextTxId + 1) ∧
      ∃ tid fromAcc toAcc,
        get_transaction_type_id db "transfer" = some tid ∧
        lookupAcc db.accounts f = some fromAcc ∧
        lookupAcc db.accounts t = some toAcc ∧
        db'.transactions = db.transactions ++
          [⟨db.nextTxId, f, tid, -amt,
            d ++ " to account " ++ toString t, some t⟩,
           ⟨db.nextTxId + 1, t, tid, amt,
            d ++ " from account " ++ toString f, some f⟩] ∧
        lookupAcc db'.accounts f =
          some { fromAcc with balance := fromAcc.balance - amt } ∧
        lookupAcc db'.accounts t =
          some { toAcc with balance := toAcc.balance + amt }) := by
  refine ⟨?_, ?_, ?_⟩
  · intro hpos hft
    subst hft
    have heq : (transfer_funds db f f amt d).2 = .error .transactionError := by
      simp [transfer_funds, not_le.mpr hpos]
    exact ⟨heq, by simp [applyOp, heq]⟩
  · intro e he
    simp [applyOp, he]
  · intro ids db' heq
    simp only [transfer_funds] at heq
    split at heq
    · exact Except.noConfusion heq
    split at heq
    · exact Except.noConfusion heq
    rename_i hne
    refine ⟨hne, ?_⟩
    split at heq
    · exact Except.noConfusion heq
    · exact Except.noConfusion heq
    rename_i acc1 acc2 h1 h2
    split at heq
    · exact Except.noConfusion heq
    split at heq
    · exact Except.noConfusion heq
    split at heq
    · exact Except.noConfusion heq
    split at heq
    · exact Except.noConfusion heq
    rename_i db1 hupd1
    split at heq
    · exact Except.noConfusion heq
    rename_i db3 hupd3
    split at heq
    · exact Except.noConfusion heq
    rename_i tid htid
    have hdb1 := update_account_balance_eq_some hupd1
    subst hdb1
    split at hupd3
    all_goals
      have hdb3 := update_account_balance_eq_some hupd3
      subst hdb3
      have hinj := Except.ok.inj heq
      injection hinj with hids hdb'
      subst hdb'
      subst hids
      refine ⟨rfl, ?_⟩
      rcases le_total f t with hle | hle
      · have hmin : min f t = f := min_eq_left hle
        have hmax : max f t = t := max_eq_right hle
        rw [hmin] at h1
        rw [hmax] at h2
        have hne' : ¬ t = f := fun hh => hne hh.symm
        exact ⟨tid, acc1, acc2, htid, h1, h2,
          by simp [record_transaction, log_event_conn],
          by simp [record_transaction, log_event_conn, lookupAcc_updAcc,
            hne', h1, sub_eq_add_neg],
          by simp [record_transaction, log_event_conn, lookupAcc_updAcc,
            hne, hne', h2]⟩
      · have hmin : min f t = t := min_eq_right hle
        have hmax : max f t = f := max_eq_left hle
        rw [hmin] at h1
        rw [hmax] at h2
        have hne' : ¬ t = f := fun hh => hne hh.symm
        exact ⟨tid, acc2, acc1, htid, h2, h1,
          by simp [record_transaction, log_event_conn],
          by simp [record_transaction, log_event_conn, lookupAcc_updAcc,
            hne', h2, sub_eq_add_neg],
          by simp [record_transaction, log_event_conn, lookupAcc_updAcc,
            hne, hne', h1]⟩

/-- Witness for C3: a same-account transfer on a concrete database fails
with the generic transaction error and leaves the state unchanged. -/
theorem C3_witness :
    (transfer_funds seedDB 1 1 5 "t").2 = .error .transactionError ∧
      applyOp seedDB (.xfer 1 1 5 "t") = seedDB :=
  (C3_transfer_atomicity seedDB 1 1 5 "t").1 (by norm_num) rfl

/-- C8: for every existing account, closing via
`update_account_status(id, 'closed')` raises `AccountStatusError` if and only
if the balance is non-zero; with a zero balance the close succeeds and the
stored status becomes closed. -/
theorem C8_close_requires_zero_balance (db : DB) (a : ℕ) (acc : Account)
    (hacc : lookupAcc db.accounts a = some acc) :
    (update_account_status db a .closed = .error .accountStatusError ↔
      acc.balance ≠ 0) ∧
    (acc.balance = 0 →
      ∃ db', update_account_status db a .closed = .ok db' ∧
        lookupAcc db'.accounts a = some { acc with status := .closed }) := by
  constructor
  · by_cases hb : acc.balance = 0
    · simp [update_account_status, hacc, hb]
    · simp [update_account_status, hacc, hb]
  · intro hb
    refine ⟨log_event_standalone
      { db with
        accounts := updAcc db.accounts a fun x =>
          { x with status := AccountStatus.closed },
        journal := db.journal ++ [⟨db.nextUnitId, .statusUpdate a .closed⟩],
        nextUnitId := db.nextUnitId + 1 } "ACCOUNT_STATUS_CHANGE" a, ?_, ?_⟩
    · simp [update_account_status, hacc, hb]
    · simp [update_account_status, hacc, hb, log_event_standalone,
        log_event_conn, lookupAcc_updAcc]

/-- Witness for C8: closing the concrete account 2, which has balance 50,
fails with `AccountStatusError`. -/
theorem C8_witness :
    update_account_status seedDB 2 .closed = .error .accountStatusError :=
  (C8_close_requires_zero_balance seedDB 2 ⟨50, .active, 0⟩
      (by with_unfolding_all decide)).1.mpr (by norm_num)

/-- C10: for every account id with no `accounts` row,
`check_account_balance_vs_transactions` raises `AccountingValidationError`
instead of returning a (matched, balance, sum) report. -/
theorem C10_check_missing_account (db : DB) (a : ℕ)
    (h : lookupAcc db.accounts a = none) :
    check_account_balance_vs_transactions db a = .error .accountNotFound := by
  simp [check_account_balance_vs_transactions, h]

/-- Witness for C10 at a concrete database and a nonexistent account id. -/
theorem C10_witness :
    check_account_balance_vs_transactions seedDB 99 =
      .error .accountNotFound :=
  C10_check_missing_account seedDB 99 (by with_unfolding_all decide)

theorem quantize2_zero : quantize2 0 = 0 := by
  norm_num [quantize2, roundHalfUpInt]

/-- The two rows a successful transfer appends to the `transactions` table:
the debit leg on the from-account and the credit leg on the to-account. -/
theorem transfer_funds_ok_txs {db : DB} {f t : ℕ} {amt : ℚ} {d : String}
    {ids : ℕ × ℕ} {db' : DB}
    (heq : (transfer_funds db f t amt d).2 = .ok (ids, db')) :
    ∃ tid, db'.transactions = db.transactions ++
      [⟨db.nextTxId, f, tid, -amt, d ++ " to account " ++ toString t, some t⟩,
       ⟨db.nextTxId + 1, t, tid, amt,
         d ++ " from account " ++ toString f, some f⟩] := by
  simp only [transfer_funds] at heq
  split at heq
  · exact Except.noConfusion heq
  split at heq
  · exact Except.noConfusion heq
  split at heq
  · exact Except.noConfusion heq
  · exact Except.noConfusion heq
  split at heq
  · exact Except.noConfusion heq
  split at heq
  · exact Except.noConfusion heq
  split at heq
  · exact Except.noConfusion heq
  split at heq
  · exact Except.noConfusion heq
  rename_i db1 hupd1
  split at heq
  · exact Except.noConfusion heq
  rename_i db3 hupd3
  split at heq
  · exact Except.noConfusion heq
  rename_i tid htid
  have hdb1 := update_account_balance_eq_some hupd1
  subst hdb1
  split at hupd3
  all_goals
    have hdb3 := update_account_balance_eq_some hupd3
    subst hdb3
    have hinj := Except.ok.inj heq
    injection hinj with hids hdb'
    subst hdb'
    exact ⟨tid, by simp [record_transaction, log_event_conn]⟩

/-- A transfer operation, successful or not, does not change the global sum
of transaction amounts. -/
theorem txTotal_xfer (db : DB) (f t : ℕ) (amt : ℚ) (d : String) :
    txTotal (applyOp db (.xfer f t amt d)) = txTotal db := by
  simp only [applyOp]
  split
  case h_2 => rfl
  case h_1 r heq =>
    obtain ⟨ids, db'⟩ := r
    obtain ⟨tid, htx⟩ := transfer_funds_ok_txs heq
    simp [txTotal, htx]

/-- A sequence consisting only of transfers does not change the global sum
of transaction amounts. -/
theorem txTotal_runOps_transfers (db : DB) (ops : List Op)
    (hall : ∀ op ∈ ops, op.isTransfer = true) :
    txTotal (runOps db ops) = txTotal db := by
  induction ops generalizing db with
  | nil => rfl
  | cons op rest ih =>
    have hop := hall op (List.mem_cons_self op rest)
    have hrest := fun o ho => hall o (List.mem_cons_of_mem op ho)
    cases op with
    | xfer f t amt d =>
      rw [runOps, ih (applyOp db (.xfer f t amt d)) hrest, txTotal_xfer]
    | dep a amt d => exact absurd hop (by simp [Op.isTransfer])
    | wd a amt d => exact absurd hop (by simp [Op.isTransfer])
    | wire a amt d dir => exact absurd hop (by simp [Op.isTransfer])
    | ach a amt d ty => exact absurd hop (by simp [Op.isTransfer])

/-- C7: `verify_ledger_integrity` returns the sum of all transaction amounts
quantized to two decimals, reporting balanced exactly when that quantized sum
is zero; an empty ledger yields `(true, 0.00)`, a ledger built from paired
transfers only yields `(true, 0.00)`, and one raw deposit of `100.00` on an
empty ledger yields `(false, 100.00)`. -/
theorem C7_verify_ledger_integrity (db : DB) :
    ((verify_ledger_integrity db).2 = quantize2 (txTotal db) ∧
      ((verify_ledger_integrity db).1 = true ↔
        quantize2 (txTotal db) = 0)) ∧
    (db.transactions = [] → verify_ledger_integrity db = (true, 0)) ∧
    (∀ ops : List Op, db.transactions = [] →
      (∀ op ∈ ops, op.isTransfer = true) →
      verify_ledger_integrity (runOps db ops) = (true, 0)) ∧
    (∀ a acc d did, db.transactions = [] →
      lookupAcc db.accounts a = some acc → acc.status = .active →
      get_transaction_type_id db "deposit" = some did →
      verify_ledger_integrity (applyOp db (.dep a 100 d)) = (false, 100)) := by
  refine ⟨?_, ?_, ?_, ?_⟩
  · cases htx : db.transactions with
    | nil =>
      have h0 : txTotal db = 0 := by simp [txTotal, htx]
      simp [verify_ledger_integrity, htx, h0, quantize2_zero]
    | cons x xs =>
      by_cases hq : quantize2 (txTotal db) = 0 <;>
        simp [verify_ledger_integrity, htx, hq]
  · intro htx
    simp [verify_ledger_integrity, htx]
  · intro ops hempty hall
    have h0 : txTotal db = 0 := by simp [txTotal, hempty]
    have htot : txTotal (runOps db ops) = 0 := by
      rw [txTotal_runOps_transfers db ops hall, h0]
    cases h : (runOps db ops).transactions with
    | nil => simp [verify_ledger_integrity, h]
    | cons x xs =>
      have hqz : quantize2 (txTotal (runOps db ops)) = 0 := by
        rw [htot]
        exact quantize2_zero
      simp [verify_ledger_integrity, h, hqz]
  · intro a acc d did hempty hacc hact hdid
    have hdid' : lookupTbl db.txTypes "deposit" = some did := hdid
    have hupdsome : update_account_balance db a 100 db.nextUnitId =
        some { db with
          accounts := updAcc db.accounts a fun x =>
            { x with balance := x.balance + 100 },
          journal := db.journal ++
            [⟨db.nextUnitId, .balanceUpdate a 100⟩] } := by
      unfold update_account_balance
      rw [hacc]
      simp
    have happ : (applyOp db (.dep a 100 d)).transactions =
        db.transactions ++ [⟨db.nextTxId, a, did, 100, d, none⟩] := by
      norm_num [applyOp, deposit, hacc, hact, hupdsome,
        get_transaction_type_id, hdid', record_transaction]
    have htot : txTotal (applyOp db (.dep a 100 d)) = 100 := by
      simp [txTotal, happ, hempty]
    have hq100 : quantize2 (100 : ℚ) = 100 := by
      norm_num [quantize2, roundHalfUpInt]
    have hne : quantize2 (txTotal (applyOp db (.dep a 100 d))) ≠ 0 := by
      rw [htot, hq100]
      norm_num
    rw [htot] at hne
    cases h : (applyOp db (.dep a 100 d)).transactions with
    | nil => rw [h] at happ; simp at happ
    | cons x xs =>
      have : quantize2 (txTotal (applyOp db (.dep a 100 d))) = 100 := by
        rw [htot, hq100]
      simp [verify_ledger_integrity, h, this]

/-- Witness for C7: the empty concrete ledger verifies as balanced with sum
zero. -/
theorem C7_witness : verify_ledger_integrity seedDB = (true, 0) :=
  (C7_verify_ledger_integrity seedDB).2.1 rfl

/-- C6: for every successful debit operation (withdraw, transfer from-leg,
outgoing wire, ACH debit), an OVERDRAFT_USED audit event is emitted if and
only if the post-balance is negative and either the pre-balance was
non-negative or the post-balance is strictly below the pre-balance; the
event is written with the same unit number as the balance mutation. -/
theorem C6_overdraft_audit :
    (∀ oldB newB : ℚ, overdraftEventCond oldB newB ↔
      (newB < 0 ∧ (0 ≤ oldB ∨ newB < oldB))) ∧
    (∀ db a amt d acc txId db',
      lookupAcc db.accounts a = some acc →
      withdraw db a amt d = .ok (txId, db') →
      db'.auditLog = db.auditLog ++
        (if overdraftEventCond acc.balance (acc.balance - amt) then
          [⟨db.nextLogId, "OVERDRAFT_USED", "accounts", a, db.nextUnitId⟩]
        else []) ∧
      (⟨db.nextUnitId, .balanceUpdate a (-amt)⟩ : JEntry) ∈ db'.journal) ∧
    (∀ db f t amt d fromAcc ids db',
      lookupAcc db.accounts f = some fromAcc →
      (transfer_funds db f t amt d).2 = .ok (ids, db') →
      db'.auditLog = db.auditLog ++
        (if overdraftEventCond fromAcc.balance (fromAcc.balance - amt) then
          [⟨db.nextLogId, "OVERDRAFT_USED", "accounts", f, db.nextUnitId⟩]
        else []) ∧
      (⟨db.nextUnitId, .balanceUpdate f (-amt)⟩ : JEntry) ∈ db'.journal) ∧
    (∀ db a amt d acc txId db',
      lookupAcc db.accounts a = some acc →
      process_wire_transfer db a amt d .outgoing = .ok (txId, db') →
      db'.auditLog = db.auditLog ++
        (if overdraftEventCond acc.balance (acc.balance - amt) then
          [⟨db.nextLogId, "OVERDRAFT_USED", "accounts", a, db.nextUnitId⟩]
        else []) ∧
      (⟨db.nextUnitId, .balanceUpdate a (-amt)⟩ : JEntry) ∈ db'.journal) ∧
    (∀ db a amt d acc txId db',
      lookupAcc db.accounts a = some acc →
      process_ach_transaction db a amt d .debit = .ok (txId, db') →
      db'.auditLog = db.auditLog ++
        (if overdraftEventCond acc.balance (acc.balance - amt) then
          [⟨db.nextLogId, "OVERDRAFT_USED", "accounts", a, db.nextUnitId⟩]
        else []) ∧
      (⟨db.nextUnitId, .balanceUpdate a (-amt)⟩ : JEntry) ∈ db'.journal) := by
  refine ⟨?_, ?_, ?_, ?_, ?_⟩
  · intro oldB newB
    unfold overdraftEventCond
    rw [not_lt]
  · intro db a amt d acc txId db' hacc heq
    simp only [withdraw] at heq
    split at heq
    · exact Except.noConfusion heq
    split at heq
    · exact Except.noConfusion heq
    rename_i acc0 hlook
    split at heq
    · exact Except.noConfusion heq
    split at heq
    · exact Except.noConfusion heq
    split at heq
    · exact Except.noConfusion heq
    rename_i db1 hupd
    split at heq
    · exact Except.noConfusion heq
    rename_i tid htid
    rw [hacc] at hlook
    cases hlook
    have hdb1 := update_account_balance_eq_some hupd
    subst hdb1
    have hinj := Except.ok.inj heq
    injection hinj with hid hdb'
    subst hdb'
    by_cases hov : overdraftEventCond acc.balance (acc.balance - amt) <;>
      simp [hov, record_transaction, log_event_conn]
  · intro db f t amt d fromAcc ids db' hacc heq
    simp only [transfer_funds] at heq
    split at heq
    · exact Except.noConfusion heq
    split at heq
    · exact Except.noConfusion heq
    rename_i hne
    split at heq
    · exact Except.noConfusion heq
    · exact Except.noConfusion heq
    rename_i acc1 acc2 h1 h2
    split at heq
    · exact Except.noConfusion heq
    split at heq
    · exact Except.noConfusion heq
    split at heq
    · exact Except.noConfusion heq
    split at heq
    · exact Except.noConfusion heq
    rename_i db1 hupd1
    split at heq
    · exact Except.noConfusion heq
    rename_i db3 hupd3
    split at heq
    · exact Except.noConfusion heq
    rename_i tid htid
    have hdb1 := update_account_balance_eq_some hupd1
    subst hdb1
    rcases le_total f t with hle | hle
    · have hmin : min f t = f := min_eq_left hle
      rw [hmin, hacc] at h1
      cases h1
      have hpick : pickAcc (min f t) f fromAcc acc2 = fromAcc := by
        simp [pickAcc, hmin]
      rw [hpick] at hupd3
      split at hupd3
      all_goals
        have hdb3 := update_account_balance_eq_some hupd3
        subst hdb3
        have hinj := Except.ok.inj heq
        injection hinj with hid hdb'
        subst hdb'
        rename_i hov
        simp [hov, record_transaction, log_event_conn]
    · have hmax : max f t = f := max_eq_left hle
      rw [hmax, hacc] at h2
      cases h2
      by_cases hft : min f t = f
      · have hpick : pickAcc (min f t) f acc1 fromAcc = acc1 := by
          simp [pickAcc, hft]
        have heqacc : acc1 = fromAcc := by
          rw [hft, hacc] at h1
          exact (Option.some.inj h1).symm
        subst heqacc
        rw [hpick] at hupd3
        split at hupd3
        all_goals
          have hdb3 := update_account_balance_eq_some hupd3
          subst hdb3
          have hinj := Except.ok.inj heq
          injection hinj with hid hdb'
          subst hdb'
          rename_i hov
          simp [hov, record_transaction, log_event_conn]
      · have hpick : pickAcc (min f t) f acc1 fromAcc = fromAcc := by
          simp [pickAcc, hft]
        rw [hpick] at hupd3
        split at hupd3
        all_goals
          have hdb3 := update_account_balance_eq_some hupd3
          subst hdb3
          have hinj := Except.ok.inj heq
          injection hinj with hid hdb'
          subst hdb'
          rename_i hov
          simp [hov, record_transaction, log_event_conn]
  · intro db a amt d acc txId db' hacc heq
    simp only [process_wire_transfer] at heq
    split at heq
    · exact Except.noConfusion heq
    split at heq
    · exact Except.noConfusion heq
    rename_i acc0 hlook
    split at heq
    · exact Except.noConfusion heq
    split at heq
    · exact Except.noConfusion heq
    rename_i tid htid
    split at heq
    · exact Except.noConfusion heq
    split at heq
    · exact Except.noConfusion heq
    rename_i db1 hupd
    rw [hacc] at hlook
    cases hlook
    have hdb1 := update_account_balance_eq_some hupd
    subst hdb1
    have hinj := Except.ok.inj heq
    injection hinj with hid hdb'
    subst hdb'
    by_cases hov : overdraftEventCond acc.balance (acc.balance - amt) <;>
      simp [hov, record_transaction, log_event_conn]
  · intro db a amt d acc txId db' hacc heq
    simp only [process_ach_transaction] at heq
    split at heq
    · exact Except.noConfusion heq
    split at heq
    · exact Except.noConfusion heq
    rename_i acc0 hlook
    split at heq
    · exact Except.noConfusion heq
    split at heq
    · exact Except.noConfusion heq
    split at heq
    · exact Except.noConfusion heq
    rename_i db1 hupd
    split at heq
    · exact Except.noConfusion heq
    rename_i tid htid
    rw [hacc] at hlook
    cases hlook
    have hdb1 := update_account_balance_eq_some hupd
    subst hdb1
    have hinj := Except.ok.inj heq
    injection hinj with hid hdb'
    subst hdb'
    by_cases hov : overdraftEventCond acc.balance (acc.balance - amt) <;>
      simp [hov, record_transaction, log_event_conn]

/-- Witness for C6: withdrawing 50 from the concrete account with balance 0
and overdraft limit 100 emits one OVERDRAFT_USED event in the same unit as
the balance update. -/
theorem C6_witness :
    (applyOp seedDB (.wd 1 50 "w")).auditLog = seedDB.auditLog ++
      (if overdraftEventCond (0 : ℚ) ((0 : ℚ) - 50) then
        [⟨seedDB.nextLogId, "OVERDRAFT_USED", "accounts", 1,
          seedDB.nextUnitId⟩]
      else []) ∧
    (⟨seedDB.nextUnitId, .balanceUpdate 1 (-50)⟩ : JEntry) ∈
      (applyOp seedDB (.wd 1 50 "w")).journal :=
  C6_overdraft_audit.2.1 seedDB 1 50 "w" ⟨0, .active, 100⟩ 0
    (applyOp seedDB (.wd 1 50 "w")) (by with_unfolding_all decide)
    (by with_unfolding_all decide)

/-- All journal entries committed by one successful `withdraw` carry the
withdrawing connection's unit number, and the commit advances the unit
counter by one. -/
theorem withdraw_ok_journal {db : DB} {a : ℕ} {amt : ℚ} {d : String}
    {txId : ℕ} {db' : DB} (heq : withdraw db a amt d = .ok (txId, db')) :
    ∃ tail, db'.journal = db.journal ++ tail ∧
      (∀ e ∈ tail, e.unit = db.nextUnitId) ∧
      db'.nextUnitId = db.nextUnitId + 1 := by
  simp only [withdraw] at heq
  split at heq
  · exact Except.noConfusion heq
  split at heq
  · exact Except.noConfusion heq
  rename_i acc0 hlook
  split at heq
  · exact Except.noConfusion heq
  split at heq
  · exact Except.noConfusion heq
  split at heq
  · exact Except.noConfusion heq
  rename_i db1 hupd
  split at heq
  · exact Except.noConfusion heq
  rename_i tid htid
  have hdb1 := update_account_balance_eq_some hupd
  subst hdb1
  have hinj := Except.ok.inj heq
  injection hinj with hid hdb'
  subst hdb'
  by_cases hov : overdraftEventCond acc0.balance (acc0.balance - amt)
  · refine ⟨[⟨db.nextUnitId, .balanceUpdate a (-amt)⟩,
      ⟨db.nextUnitId, .auditInsert db.nextLogId "OVERDRAFT_USED" a⟩,
      ⟨db.nextUnitId, .txInsert db.nextTxId a (-amt)⟩], ?_, ?_, ?_⟩
    · simp [hov, record_transaction, log_event_conn]
    · intro e he
      simp only [List.mem_cons, List.not_mem_nil, or_false] at he
      rcases he with rfl | rfl | rfl <;> rfl
    · simp [hov, record_transaction, log_event_conn]
  · refine ⟨[⟨db.nextUnitId, .balanceUpdate a (-amt)⟩,
      ⟨db.nextUnitId, .txInsert db.nextTxId a (-amt)⟩], ?_, ?_, ?_⟩
    · simp [hov, record_transaction, log_event_conn]
    · intro e he
      simp only [List.mem_cons, List.not_mem_nil, or_false] at he
      rcases he with rfl | rfl <;> rfl
    · simp [hov, record_transaction, log_event_conn]

/-- Counterexample to C5 as stated: freezing account 1 of the concrete
database commits the status update in atomic unit 0 but writes its
ACCOUNT_STATUS_CHANGE audit entry in atomic unit 1 — a different database
transaction, so a rollback of the status change would not roll back its
audit record. -/
theorem C5_counterexample :
    update_account_status seedDB 1 .frozen = .ok frozenDB ∧
    frozenDB.journal = [⟨0, .statusUpdate 1 .frozen⟩,
      ⟨1, .auditInsert 0 "ACCOUNT_STATUS_CHANGE" 1⟩] ∧
    (0 : ℕ) ≠ 1 := by
  refine ⟨?_, ?_, ?_⟩ <;> with_unfolding_all decide

/-- C5 (amended): the OVERDRAFT_USED audit entries of the engine's debit
paths are written inside the same atomic unit as the balance mutation they
document, but the ACCOUNT_STATUS_CHANGE and FEE_APPLIED audit entries are
written by a separate auto-committed connection in the unit after the one
that committed the state change. -/
theorem C5_audit_unit_placement :
    (∀ db a amt d txId db', withdraw db a amt d = .ok (txId, db') →
      ∃ tail, db'.journal = db.journal ++ tail ∧
        ∀ e ∈ tail, e.unit = db.nextUnitId) ∧
    (∀ db a st db', update_account_status db a st = .ok db' →
      db'.journal = db.journal ++
        [⟨db.nextUnitId, .statusUpdate a st⟩,
         ⟨db.nextUnitId + 1,
           .auditInsert db.nextLogId "ACCOUNT_STATUS_CHANGE" a⟩]) ∧
    (∀ db a name fa d txId db', apply_fee db a name fa d = .ok (txId, db') →
      ∃ tail lid, db'.journal = db.journal ++ tail ++
        [⟨db.nextUnitId + 1, .auditInsert lid "FEE_APPLIED" a⟩] ∧
        ∀ e ∈ tail, e.unit = db.nextUnitId) := by
  refine ⟨?_, ?_, ?_⟩
  · intro db a amt d txId db' heq
    obtain ⟨tail, h1, h2, _⟩ := withdraw_ok_journal heq
    exact ⟨tail, h1, h2⟩
  · intro db a st db' heq
    simp only [update_account_status] at heq
    split at heq
    · exact Except.noConfusion heq
    rename_i acc0 hlook
    split at heq
    · exact Except.noConfusion heq
    cases Except.ok.inj heq
    simp [log_event_standalone, log_event_conn]
  · intro db a name fa d txId db' heq
    simp only [apply_fee] at heq
    split at heq
    · exact Except.noConfusion heq
    rename_i dflt hdflt
    split at heq
    · exact Except.noConfusion heq
    split at heq
    · exact Except.noConfusion heq
    rename_i wtx wdb1 hw
    have hinj := Except.ok.inj heq
    injection hinj with h4 h5
    subst h4
    subst h5
    obtain ⟨tail, h1, h2, h3⟩ := withdraw_ok_journal hw
    refine ⟨tail, wdb1.nextLogId, ?_, h2⟩
    simp [log_event_standalone, log_event_conn, h1, h3]

/-- Witness for the amended C5: freezing account 1 of the concrete database
places the status update in unit 0 and the audit insert in unit 1. -/
theorem C5_witness :
    frozenDB.journal = seedDB.journal ++
      [⟨seedDB.nextUnitId, .statusUpdate 1 .frozen⟩,
       ⟨seedDB.nextUnitId + 1,
         .auditInsert seedDB.nextLogId "ACCOUNT_STATUS_CHANGE" 1⟩] :=
  C5_audit_unit_placement.2.1 seedDB 1 .frozen frozenDB
    (by with_unfolding_all decide)

/-- C9: `apply_fee` fails with `FeeTypeNotFoundError` on an unknown fee
type; a supplied override must be positive, else the generic fee error is
raised; the charged amount is the override when supplied and the fee type's
default otherwise; the debit delegates exactly that amount to `withdraw`
(inheriting its status/overdraft/audit semantics); and a failure of the
underlying withdraw is re-raised as a fee-domain error that preserves the
original cause. -/
theorem C9_apply_fee_contract (db : DB) (a : ℕ) (name : String)
    (feeAmount : Option ℚ) (d : Option String) :
    (get_fee_type_details db name = none →
      apply_fee db a name feeAmount d = .error .feeTypeNotFound) ∧
    (∀ v dflt, feeAmount = some v → v ≤ 0 →
      get_fee_type_details db name = some dflt →
      apply_fee db a name feeAmount d = .error .feeAmountNotPositive) ∧
    (∀ dflt, get_fee_type_details db name = some dflt →
      ¬ feeAmount.getD dflt ≤ 0 →
      ((∀ e, withdraw db a (feeAmount.getD dflt)
          (pyOr d ("Fee applied: " ++ name)) = .error e →
        apply_fee db a name feeAmount d = .error (.wrapped e)) ∧
       (∀ txId db1, withdraw db a (feeAmount.getD dflt)
          (pyOr d ("Fee applied: " ++ name)) = .ok (txId, db1) →
        apply_fee db a name feeAmount d =
          .ok (txId, log_event_standalone db1 "FEE_APPLIED" a)))) := by
  refine ⟨?_, ?_, ?_⟩
  · intro h
    simp [apply_fee, h]
  · intro v dflt hv hle hdflt
    subst hv
    simp [apply_fee, hdflt, Option.getD, hle]
  · intro dflt hdflt hpos
    constructor
    · intro e he
      simp [apply_fee, hdflt, hpos, he]
    · intro txId db1 hok
      simp [apply_fee, hdflt, hpos, hok]

/-- Witness for C9: applying an unknown fee type on the concrete database
fails with `FeeTypeNotFoundError`. -/
theorem C9_witness :
    apply_fee seedDB 1 "unknown_fee" none none = .error .feeTypeNotFound :=
  (C9_apply_fee_contract seedDB 1 "unknown_fee" none none).1
    (by with_unfolding_all decide)

end Ledger
